import Mathlib

/-!
Verification of the Raster Vision pipeline execution engine against its
specification.

The definitions below are shallow embeddings of the two source files

  rastervision_core/rastervision/core/rv_pipeline/rv_pipeline.py
  rastervision/v2/rv/cli.py

External collaborators (the model backend, scene building, dataset
splitting, file download and archiving, the Python int() builtin) are
represented by abstract function fields of configuration structures, and
effectful commands are represented as pure functions returning the list of
observable events they perform, in order.
-/

set_option maxHeartbeats 1000000

/-! ## Batching as performed by RVPipeline.predict_scene

The loop in predict_scene appends each window (and its chip) to a buffer
and flushes the buffer into one backend invocation whenever
len(batch_chips) >= predict_batch_sz; after the window sequence is
exhausted a nonempty remainder buffer is flushed once.  batchesOf computes
the resulting sequence of flushed batches, given the remaining windows and
the current buffer contents. -/
def batchesOf {W : Type} (b : Nat) : List W → List W → List (List W)
  | [], buf => if 0 < buf.length then [buf] else []
  | window :: ws, buf =>
    let buf2 := buf ++ [window]
    if b ≤ buf2.length then buf2 :: batchesOf b ws [] else batchesOf b ws buf2

/-! ## Scene, backend and pipeline hooks used by predict_scene -/

/-- Model of the parts of a Scene used by RVPipeline.predict_scene:
raster_source.get_extent(), raster_source.get_chip,
prediction_label_store.empty_labels(). -/
structure SceneM (E W C L : Type) where
  extent : E
  get_chip : W → C
  empty_labels : L

/-- Model of the part of the Backend capability used by predict_scene:
backend.predict(chips, windows) returning Labels. -/
structure BackendM (W C L : Type) where
  predict : List C → List W → L

/-- Model of the RVPipeline configuration and hooks used by predict_scene:
config.predict_batch_sz, the get_predict_windows hook, the
post_process_batch and post_process_predictions hooks, and the Labels
merge operation invoked by the statement labels += batch_labels. -/
structure PipelineM (E W C L : Type) where
  predict_batch_sz : Nat
  get_predict_windows : E → List W
  post_process_batch : List W → List C → L → L
  post_process_predictions : L → SceneM E W C L → L
  mergeLabels : L → L → L

variable {E W C L : Type}

/-- The body of predict_batch in RVPipeline.predict_scene:
batch_labels = backend.predict(chips, windows);
batch_labels = self.post_process_batch(windows, chips, batch_labels);
labels += batch_labels. -/
def predictFlush (pl : PipelineM E W C L) (sc : SceneM E W C L) (bk : BackendM W C L)
    (labels : L) (batch_chips : List C) (batch_windows : List W) : L :=
  pl.mergeLabels labels
    (pl.post_process_batch batch_windows batch_chips (bk.predict batch_chips batch_windows))

/-- One iteration of the for-loop in RVPipeline.predict_scene: append the
window's chip and the window to the buffers, then flush when the buffer
has reached predict_batch_sz. -/
def predictStep (pl : PipelineM E W C L) (sc : SceneM E W C L) (bk : BackendM W C L)
    (st : L × List C × List W) (window : W) : L × List C × List W :=
  match st with
  | (labels, batch_chips, batch_windows) =>
    let chip := sc.get_chip window
    let bc := batch_chips ++ [chip]
    let bw := batch_windows ++ [window]
    if pl.predict_batch_sz ≤ bc.length then
      (predictFlush pl sc bk labels bc bw, [], [])
    else
      (labels, bc, bw)

/-- The tail of RVPipeline.predict_scene: flush the remaining partial
buffer when it is nonempty. -/
def predictFinish (pl : PipelineM E W C L) (sc : SceneM E W C L) (bk : BackendM W C L)
    (st : L × List C × List W) : L :=
  match st with
  | (labels, batch_chips, batch_windows) =>
    if 0 < batch_chips.length then predictFlush pl sc bk labels batch_chips batch_windows
    else labels

/-- Shallow embedding of RVPipeline.predict_scene: obtain the prediction
windows from the raster extent, run the buffering loop starting from the
label store's empty Labels, flush the remainder, and apply
post_process_predictions to the merged Labels. -/
def predict_scene (pl : PipelineM E W C L) (sc : SceneM E W C L) (bk : BackendM W C L) : L :=
  let windows := pl.get_predict_windows sc.extent
  pl.post_process_predictions
    (predictFinish pl sc bk (windows.foldl (predictStep pl sc bk) (sc.empty_labels, [], []))) sc

/-- predictStep instrumented with the list of backend invocations made so
far; each flush records the window batch passed to backend.predict. -/
def predictStepT (pl : PipelineM E W C L) (sc : SceneM E W C L) (bk : BackendM W C L)
    (st : L × List C × List W × List (List W)) (window : W) :
    L × List C × List W × List (List W) :=
  match st with
  | (labels, batch_chips, batch_windows, calls) =>
    let chip := sc.get_chip window
    let bc := batch_chips ++ [chip]
    let bw := batch_windows ++ [window]
    if pl.predict_batch_sz ≤ bc.length then
      (predictFlush pl sc bk labels bc bw, [], [], calls ++ [bw])
    else
      (labels, bc, bw, calls)

/-- Instrumented version of predictFinish, recording the final partial
flush when it happens. -/
def predictFinishT (pl : PipelineM E W C L) (sc : SceneM E W C L) (bk : BackendM W C L)
    (st : L × List C × List W × List (List W)) : L × List (List W) :=
  match st with
  | (labels, batch_chips, batch_windows, calls) =>
    if 0 < batch_chips.length then
      (predictFlush pl sc bk labels batch_chips batch_windows, calls ++ [batch_windows])
    else (labels, calls)

/-- RVPipeline.predict_scene instrumented with the sequence of window
batches passed to backend.predict, in invocation order. -/
def predict_scene_traced (pl : PipelineM E W C L) (sc : SceneM E W C L)
    (bk : BackendM W C L) : L × List (List W) :=
  let windows := pl.get_predict_windows sc.extent
  let r := predictFinishT pl sc bk
    (windows.foldl (predictStepT pl sc bk) (sc.empty_labels, [], [], []))
  (pl.post_process_predictions r.1 sc, r.2)

/-- The Labels contributed by one flushed window batch: the backend's raw
prediction on the batch, passed through the post_process_batch hook. -/
def batchResult (pl : PipelineM E W C L) (sc : SceneM E W C L) (bk : BackendM W C L)
    (bw : List W) : L :=
  pl.post_process_batch bw (bw.map sc.get_chip) (bk.predict (bw.map sc.get_chip) bw)

/-- Declarative form of predict_scene, following the wording of spec
section 4.4: split the window sequence into batches, obtain each batch's
raw Labels from the backend, pass them through the post_process_batch
hook, merge the results in order into the empty Labels, and apply the
post_process_predictions hook once to the merged scene Labels. -/
def predict_scene_spec (pl : PipelineM E W C L) (sc : SceneM E W C L)
    (bk : BackendM W C L) : L :=
  pl.post_process_predictions
    ((batchesOf pl.predict_batch_sz (pl.get_predict_windows sc.extent) []).foldl
      (fun acc bw => pl.mergeLabels acc (batchResult pl sc bk bw)) sc.empty_labels) sc

/-! ## The predict command (RVPipeline.predict) -/

/-- The validation/test subsets of the dataset returned by
config.dataset.get_split_config that RVPipeline.predict iterates over. -/
structure PredictDatasetM (SC : Type) where
  validation_scenes : List SC
  test_scenes : List SC

/-- Observable events performed by RVPipeline.predict, in order: building
the backend, loading the model, activating and deactivating a scene,
calling self.predict_scene(scene, backend), and saving the resulting
Labels to the scene's prediction label store. -/
inductive PredictEvent (S B L : Type) where
  | buildBackend
  | loadModel
  | activateScene (s : S)
  | predictSceneCall (s : S) (b : B) (labels : L)
  | saveLabels (s : S) (labels : L)
  | deactivateScene (s : S)
deriving DecidableEq

/-- True exactly on the buildBackend event. -/
def PredictEvent.isBuild {S B L : Type} : PredictEvent S B L → Bool
  | .buildBackend => true
  | _ => false

/-- True exactly on the loadModel event. -/
def PredictEvent.isLoad {S B L : Type} : PredictEvent S B L → Bool
  | .loadModel => true
  | _ => false

/-- Model of the collaborators used by RVPipeline.predict:
config.backend.build + the built handle, dataset.get_split_config,
scene building, and predict_scene treated as an opaque function of the
built scene and the backend handle. -/
structure PredictPipelineM (SC S B L : Type) where
  build_backend : B
  get_split_config : Nat → Nat → PredictDatasetM SC
  build_scene : SC → S
  predict_scene_result : S → B → L

/-- The inner _predict loop of RVPipeline.predict: for each scene,
activate it, compute labels = self.predict_scene(scene, self.backend),
and save them to the scene's prediction label store. -/
def predictScenesLoop {SC S B L : Type} (pl : PredictPipelineM SC S B L) (backend : B) :
    List S → List (PredictEvent S B L)
  | [] => []
  | scene :: rest =>
    PredictEvent.activateScene scene
      :: PredictEvent.predictSceneCall scene backend (pl.predict_scene_result scene backend)
      :: PredictEvent.saveLabels scene (pl.predict_scene_result scene backend)
      :: PredictEvent.deactivateScene scene
      :: predictScenesLoop pl backend rest

/-- The four events RVPipeline.predict performs for one scene. -/
def sceneBlock {SC S B L : Type} (pl : PredictPipelineM SC S B L) (backend : B)
    (scene : S) : List (PredictEvent S B L) :=
  [PredictEvent.activateScene scene,
   PredictEvent.predictSceneCall scene backend (pl.predict_scene_result scene backend),
   PredictEvent.saveLabels scene (pl.predict_scene_result scene backend),
   PredictEvent.deactivateScene scene]

/-- Shallow embedding of RVPipeline.predict(split_ind, num_splits).  The
Option B argument is the state of the self.backend cache before the call;
the result pairs the cache state after the call with the event trace.
When the cache is empty the backend is built and load_model is called and
the handle is stored; validation scenes are processed first, then test
scenes, the latter only when dataset.test_scenes is nonempty. -/
def predictCmd {SC S B L : Type} (pl : PredictPipelineM SC S B L) (cached : Option B)
    (split_ind num_splits : Nat) : Option B × List (PredictEvent S B L) :=
  let st :=
    match cached with
    | none => (pl.build_backend, [PredictEvent.buildBackend, PredictEvent.loadModel])
    | some b => (b, ([] : List (PredictEvent S B L)))
  let backend := st.1
  let dataset := pl.get_split_config split_ind num_splits
  let valEvents := predictScenesLoop pl backend (dataset.validation_scenes.map pl.build_scene)
  let testEvents :=
    if dataset.test_scenes.isEmpty then []
    else predictScenesLoop pl backend (dataset.test_scenes.map pl.build_scene)
  (some backend, st.2 ++ valEvents ++ testEvents)

/-! ## The chip command (RVPipeline.chip) -/

/-- Model of the parts of a built Scene used by RVPipeline.chip: its id
and raster_source.get_chip. -/
structure ChipSceneM (I W C : Type) where
  id : I
  get_chip : W → C

/-- DataSample as constructed in RVPipeline.chip: chip pixel array,
window, labels, scene id, and the train/validation flag. -/
structure DataSample (C W L I : Type) where
  chip : C
  window : W
  labels : L
  scene_id : I
  is_train : Bool
deriving DecidableEq

/-- The train/validation subsets of the dataset returned by
config.dataset.get_split_config that RVPipeline.chip iterates over. -/
structure ChipDatasetM (SC : Type) where
  train_scenes : List SC
  validation_scenes : List SC

/-- Observable events performed by RVPipeline.chip, in order: building
the backend, entering and leaving the backend.get_sample_writer() scope,
activating and deactivating a scene, and writing one sample. -/
inductive ChipEvent (S Smp : Type) where
  | buildBackend
  | acquireWriter
  | activateScene (s : S)
  | writeSample (smp : Smp)
  | deactivateScene (s : S)
  | releaseWriter
deriving DecidableEq

/-- Model of the collaborators and hooks used by RVPipeline.chip:
dataset.get_split_config, scene building, the get_train_windows and
get_train_labels hooks, and the post_process_sample hook. -/
structure ChipPipelineM (SC I W C L : Type) where
  get_split_config : Nat → Nat → ChipDatasetM SC
  build_scene : SC → ChipSceneM I W C
  get_train_windows : ChipSceneM I W C → List W
  get_train_labels : W → ChipSceneM I W C → L
  post_process_sample : DataSample C W L I → DataSample C W L I

/-- The chip_scene closure in RVPipeline.chip: activate the scene, and
for each training window write one post-processed DataSample; isTrain is
the result of the comparison split == TRAIN. -/
def chip_scene {SC I W C L : Type} (pl : ChipPipelineM SC I W C L)
    (scene : ChipSceneM I W C) (isTrain : Bool) :
    List (ChipEvent (ChipSceneM I W C) (DataSample C W L I)) :=
  ChipEvent.activateScene scene
    :: ((pl.get_train_windows scene).map (fun w =>
          ChipEvent.writeSample (pl.post_process_sample
            { chip := scene.get_chip w
              window := w
              labels := pl.get_train_labels w scene
              scene_id := scene.id
              is_train := isTrain })))
    ++ [ChipEvent.deactivateScene scene]

/-- Shallow embedding of RVPipeline.chip(split_ind, num_splits): the
backend is built, the dataset subset for the shard is computed, and when
both its train_scenes and validation_scenes are empty the command returns
at once; otherwise the sample writer scope is entered, every train scene
and then every validation scene is chipped, and the scope is closed. -/
def chipCmd {SC I W C L : Type} (pl : ChipPipelineM SC I W C L)
    (split_ind num_splits : Nat) :
    List (ChipEvent (ChipSceneM I W C) (DataSample C W L I)) :=
  let dataset := pl.get_split_config split_ind num_splits
  if dataset.train_scenes.isEmpty && dataset.validation_scenes.isEmpty then
    [ChipEvent.buildBackend]
  else
    ChipEvent.buildBackend :: ChipEvent.acquireWriter
      :: ((dataset.train_scenes.map (fun s => chip_scene pl (pl.build_scene s) true)).flatten
          ++ (dataset.validation_scenes.map (fun s => chip_scene pl (pl.build_scene s) false)).flatten
          ++ [ChipEvent.releaseWriter])

/-! ## The bundle command (RVPipeline.bundle) -/

/-- Observable events performed by RVPipeline.bundle: copying one
retrieved file into the staging bundle directory, zipping the staging
directory, and uploading the archive to the model bundle URI. -/
inductive BundleEvent where
  | copyFile (fn : String)
  | zipArchive
  | uploadArchive
deriving DecidableEq

/-- Model of the configuration and collaborators used by
RVPipeline.bundle: the artifact base URIs, the filename lists declared by
the backend and by each analyzer, os.path.join, and download_if_needed
(which raises, modelled as Except.error, when a file cannot be
retrieved). -/
structure BundleConfigM (Er : Type) where
  train_uri : String
  analyze_uri : String
  config_uri : String
  backend_bundle_filenames : List String
  analyzer_bundle_filenames : List (List String)
  join_path : String → String → String
  download : String → Except Er String

/-- True exactly on a failed download result. -/
def exceptIsError {Er A : Type} : Except Er A → Bool
  | .error _ => true
  | .ok _ => false

/-- One filename-copy loop of RVPipeline.bundle: download each declared
filename from the base URI and copy it into the staging directory; the
first failed download aborts the command with that error, keeping the
events already performed. -/
def copyFilesFrom {Er : Type} (cfg : BundleConfigM Er) (base : String) :
    List String → List BundleEvent × Option Er
  | [] => ([], none)
  | fn :: rest =>
    match cfg.download (cfg.join_path base fn) with
    | Except.error e => ([], some e)
    | Except.ok _ =>
      let r := copyFilesFrom cfg base rest
      (BundleEvent.copyFile fn :: r.1, r.2)

/-- The analyzer loop of RVPipeline.bundle: for each analyzer, copy its
declared filenames from the analyze URI. -/
def copyAnalyzerFiles {Er : Type} (cfg : BundleConfigM Er) :
    List (List String) → List BundleEvent × Option Er
  | [] => ([], none)
  | fns :: rest =>
    let r1 := copyFilesFrom cfg cfg.analyze_uri fns
    match r1.2 with
    | some e => (r1.1, some e)
    | none =>
      let r2 := copyAnalyzerFiles cfg rest
      (r1.1 ++ r2.1, r2.2)

/-- Shallow embedding of RVPipeline.bundle: copy the backend-declared
files from the train URI, the analyzer-declared files from the analyze
URI, and the pipeline configuration into the staging directory, then zip
the directory and upload the archive; any failed download aborts the
command before the zip and upload steps. -/
def bundleCmd {Er : Type} (cfg : BundleConfigM Er) : List BundleEvent × Option Er :=
  let r1 := copyFilesFrom cfg cfg.train_uri cfg.backend_bundle_filenames
  match r1.2 with
  | some e => (r1.1, some e)
  | none =>
    let r2 := copyAnalyzerFiles cfg cfg.analyzer_bundle_filenames
    match r2.2 with
    | some e => (r1.1 ++ r2.1, some e)
    | none =>
      match cfg.download cfg.config_uri with
      | Except.error e => (r1.1 ++ r2.1, some e)
      | Except.ok _ =>
        (r1.1 ++ r2.1
          ++ [BundleEvent.copyFile "pipeline-config.json",
              BundleEvent.zipArchive, BundleEvent.uploadArchive], none)

/-! ## The command-line predict entry point (rastervision/v2/rv/cli.py) -/

/-- Model of Python str.split(sep) with a single-space separator, on the
character list of the string: adjacent separators and an empty input
produce empty tokens, exactly as in Python. -/
def splitOnSpace : List Char → List (List Char)
  | [] => [[]]
  | c :: rest =>
    if c = ' ' then [] :: splitOnSpace rest
    else
      match splitOnSpace rest with
      | [] => [[c]]
      | t :: ts => (c :: t) :: ts

/-- Numeric value of a list of decimal digit characters. -/
def digitsVal (cs : List Char) : Nat :=
  cs.foldl (fun a c => 10 * a + (c.toNat - 48)) 0

/-- The list comprehension in the cli predict command, parameterized by
the Python int() builtin.  int() is part of the Python runtime, not of
this repository, so it is treated as an external collaborator like the
backend: pyInt stands for int() applied to one token, returning none
where int() raises ValueError.  The tokens are converted from left to
right, the first token int() rejects failing the command. -/
def parseIntTokens (pyInt : List Char → Option Int) :
    List (List Char) → Except String (List Int)
  | [] => Except.ok []
  | t :: ts =>
    match pyInt t with
    | some n =>
      match parseIntTokens pyInt ts with
      | Except.ok xs => Except.ok (n :: xs)
      | Except.error e => Except.error e
    | none => Except.error "invalid literal for int"

/-- The arguments with which the cli predict command constructs
Predictor(model_bundle, tmp_dir, channel_order) and then calls
predictor.predict([image_uri], output_uri). -/
structure PredictorCall where
  model_bundle : String
  channel_order : Option (List Int)
  image_uris : List String
  output_uri : String
deriving DecidableEq

/-- Shallow embedding of the predict click command in
rastervision/v2/rv/cli.py, parameterized by the external int() builtin
(pyInt): when the optional channel-order value is present, it is split on
single spaces and each token converted by int() before the Predictor is
constructed, any token int() rejects failing the command; when it is
absent, None is passed through.  The channel-order value is given as the
character list of the option string. -/
def cliPredict (pyInt : List Char → Option Int) (model_bundle image_uri output_uri : String)
    (channel_order : Option (List Char)) : Except String PredictorCall :=
  match channel_order with
  | none =>
    Except.ok { model_bundle := model_bundle, channel_order := none,
                image_uris := [image_uri], output_uri := output_uri }
  | some s =>
    match parseIntTokens pyInt (splitOnSpace s) with
    | Except.ok xs =>
      Except.ok { model_bundle := model_bundle, channel_order := some xs,
                  image_uris := [image_uri], output_uri := output_uri }
    | Except.error e => Except.error e

/-! ## Concrete instances used to evaluate the development

All fixtures instantiate the abstract collaborator types with natural
numbers, so every computation below can be evaluated by the kernel. -/

/-- A scene over natural-number windows whose chips equal the windows and
whose prediction label store starts from the Labels value 0. -/
def sceneNat : SceneM Unit Nat Nat Nat :=
  { extent := (), get_chip := fun w => w, empty_labels := 0 }

/-- A pipeline with batch size 1, two prediction windows, identity hooks
and additive Labels merge. -/
def pipeTwoWindows : PipelineM Unit Nat Nat Nat :=
  { predict_batch_sz := 1
    get_predict_windows := fun _ => [0, 1]
    post_process_batch := fun _ _ labels => labels
    post_process_predictions := fun labels _ => labels
    mergeLabels := Nat.add }

/-- A pipeline with batch size 2 and five prediction windows, identity
hooks and additive Labels merge. -/
def pipeFiveWindows : PipelineM Unit Nat Nat Nat :=
  { pipeTwoWindows with
      predict_batch_sz := 2
      get_predict_windows := fun _ => [0, 1, 2, 3, 4] }

/-- A pipeline with batch size 2 and three prediction windows, identity
hooks and additive Labels merge. -/
def pipeThreeWindows : PipelineM Unit Nat Nat Nat :=
  { pipeTwoWindows with
      predict_batch_sz := 2
      get_predict_windows := fun _ => [0, 1, 2] }

/-- A pipeline whose window generator returns no windows. -/
def pipeNoWindows : PipelineM Unit Nat Nat Nat :=
  { pipeTwoWindows with get_predict_windows := fun _ => [] }

/-- A backend returning the constant Labels 1 for every batch, regardless
of the batch contents. -/
def backendConst : BackendM Nat Nat Nat := { predict := fun _ _ => 1 }

/-- A backend whose Labels for a batch is the number of windows in the
batch; it is additive over batch concatenation. -/
def backendCount : BackendM Nat Nat Nat := { predict := fun _ ws => ws.length }

/-- A predict-command configuration over natural-number scenes, backend
handles and Labels, with two validation scenes and one test scene. -/
def predPlFix : PredictPipelineM Nat Nat Nat Nat :=
  { build_backend := 7
    get_split_config := fun _ _ => { validation_scenes := [1, 2], test_scenes := [3] }
    build_scene := fun scfg => scfg
    predict_scene_result := fun s b => s + b }

/-- A chip configuration whose dataset split assigns no train and no
validation scenes. -/
def chipPlNoScenes : ChipPipelineM Nat Nat Nat Nat Nat :=
  { get_split_config := fun _ _ => { train_scenes := [], validation_scenes := [] }
    build_scene := fun i => { id := i, get_chip := fun w => w }
    get_train_windows := fun _ => [0]
    get_train_labels := fun w _ => w
    post_process_sample := fun smp => smp }

/-- A concrete interpretation of the abstract int() parameter, used only
to exercise the cli embedding: an optional sign followed by a nonempty
run of ASCII decimal digits, everything else rejected.  It is a test
fixture, not a model of the full int() grammar. -/
def pyIntFix (cs : List Char) : Option Int :=
  match cs with
  | [] => none
  | c :: rest =>
    if c = '-' then
      if !rest.isEmpty && rest.all Char.isDigit then some (-(digitsVal rest : Int)) else none
    else if c = '+' then
      if !rest.isEmpty && rest.all Char.isDigit then some (digitsVal rest : Int) else none
    else if cs.all Char.isDigit then some (digitsVal cs : Int)
    else none

/-- A bundle configuration declaring one backend file whose download
fails. -/
def bundleCfgMissing : BundleConfigM String :=
  { train_uri := "train"
    analyze_uri := "analyze"
    config_uri := "config.json"
    backend_bundle_filenames := ["model.pt"]
    analyzer_bundle_filenames := [["stats.json"]]
    join_path := fun a b => a ++ "/" ++ b
    download := fun uri =>
      if uri = "train/model.pt" then Except.error "missing" else Except.ok uri }

/-! ## Properties of the batching loop -/

theorem batchesOf_nil (b : Nat) (buf : List W) :
    batchesOf b [] buf = if 0 < buf.length then [buf] else [] := rfl

theorem batchesOf_cons (b : Nat) (w : W) (ws buf : List W) :
    batchesOf b (w :: ws) buf =
      if b ≤ (buf ++ [w]).length then (buf ++ [w]) :: batchesOf b ws []
      else batchesOf b ws (buf ++ [w]) := rfl

/-- The flushed batches, concatenated, are exactly the buffered prefix
followed by the remaining window sequence: every window ends up in
exactly one batch, in generation order. -/
theorem batchesOf_flatten (b : Nat) :
    ∀ (ws buf : List W), (batchesOf b ws buf).flatten = buf ++ ws := by
  intro ws
  induction ws with
  | nil =>
    intro buf
    rw [batchesOf_nil]
    by_cases h : 0 < buf.length
    · rw [if_pos h]; simp
    · rw [if_neg h]
      have : buf = [] := List.length_eq_zero.mp (by omega)
      simp [this]
  | cons w ws ih =>
    intro buf
    rw [batchesOf_cons]
    by_cases h : b ≤ (buf ++ [w]).length
    · rw [if_pos h]; simp [ih]
    · rw [if_neg h]; rw [ih]; simp

/-- Every flushed batch is nonempty. -/
theorem batchesOf_mem_ne_nil (b : Nat) :
    ∀ (ws buf : List W), ∀ c ∈ batchesOf b ws buf, c ≠ [] := by
  intro ws
  induction ws with
  | nil =>
    intro buf c hc
    rw [batchesOf_nil] at hc
    by_cases h : 0 < buf.length
    · rw [if_pos h] at hc
      rcases List.mem_singleton.mp hc with rfl
      intro hnil
      rw [hnil] at h
      simp at h
    · rw [if_neg h] at hc
      simp at hc
  | cons w ws ih =>
    intro buf c hc
    rw [batchesOf_cons] at hc
    by_cases h : b ≤ (buf ++ [w]).length
    · rw [if_pos h] at hc
      rcases List.mem_cons.mp hc with rfl | hc
      · simp
      · exact ih [] c hc
    · rw [if_neg h] at hc
      exact ih (buf ++ [w]) c hc

/-- A nonempty window sequence produces at least one batch. -/
theorem batchesOf_ne_nil (b : Nat) (ws buf : List W) (h : ws ≠ []) :
    batchesOf b ws buf ≠ [] := by
  intro hnil
  have hfl := batchesOf_flatten b ws buf
  rw [hnil] at hfl
  simp at hfl
  exact h hfl.2

/-- Number of flushed batches: starting with a buffer shorter than the
batch size, the loop makes exactly ceil((buffered + remaining) / b)
backend invocations. -/
theorem batchesOf_length (b : Nat) (hb : 0 < b) :
    ∀ (ws buf : List W), buf.length < b →
      (batchesOf b ws buf).length = (buf.length + ws.length + b - 1) / b := by
  intro ws
  induction ws with
  | nil =>
    intro buf hbuf
    rw [batchesOf_nil]
    by_cases h : 0 < buf.length
    · rw [if_pos h]
      simp only [List.length_singleton, List.length_nil, Nat.add_zero]
      symm
      apply Nat.div_eq_of_lt_le <;> omega
    · rw [if_neg h]
      simp only [List.length_nil, Nat.add_zero, Nat.zero_add]
      symm
      apply Nat.div_eq_of_lt
      omega
  | cons w ws ih =>
    intro buf hbuf
    rw [batchesOf_cons]
    have hstep : (buf ++ [w]).length = buf.length + 1 := by simp
    by_cases h : b ≤ (buf ++ [w]).length
    · rw [if_pos h]
      rw [hstep] at h
      have hlen : buf.length + 1 = b := by omega
      simp only [List.length_cons]
      rw [ih [] (by simp only [List.length_nil]; omega)]
      simp only [List.length_nil, Nat.zero_add]
      have harith : buf.length + (ws.length + 1) + b - 1 = ws.length + b - 1 + b := by omega
      rw [harith, Nat.add_div_right _ hb]
    · rw [if_neg h]
      rw [hstep] at h
      rw [ih (buf ++ [w]) (by omega)]
      rw [hstep]
      congr 1
      simp only [List.length_cons]
      omega

/-- Every batch except possibly the last one is full: it has exactly
predict_batch_sz windows. -/
theorem batchesOf_dropLast (b : Nat) :
    ∀ (ws buf : List W), buf.length < b →
      ∀ c ∈ (batchesOf b ws buf).dropLast, c.length = b := by
  intro ws
  induction ws with
  | nil =>
    intro buf hbuf c hc
    rw [batchesOf_nil] at hc
    by_cases h : 0 < buf.length
    · rw [if_pos h] at hc; simp at hc
    · rw [if_neg h] at hc; simp at hc
  | cons w ws ih =>
    intro buf hbuf c hc
    rw [batchesOf_cons] at hc
    have hstep : (buf ++ [w]).length = buf.length + 1 := by simp
    by_cases h : b ≤ (buf ++ [w]).length
    · rw [if_pos h] at hc
      rw [hstep] at h
      rcases hrest : batchesOf b ws ([] : List W) with _ | ⟨r, rs⟩
      · rw [hrest] at hc; simp at hc
      · rw [hrest] at hc
        rw [List.dropLast_cons_of_ne_nil (List.cons_ne_nil r rs)] at hc
        rcases List.mem_cons.mp hc with rfl | hc
        · rw [hstep]; omega
        · have hmem := ih [] (by simp only [List.length_nil]; omega) c
          rw [hrest] at hmem
          exact hmem hc
    · rw [if_neg h] at hc
      rw [hstep] at h
      exact ih (buf ++ [w]) (by omega) c hc

/-- The last flushed batch has the size of the remainder: n mod b windows
when b does not divide the total window count n, and exactly b when it
does. -/
theorem batchesOf_getLast (b : Nat) (hb : 0 < b) :
    ∀ (ws buf : List W), buf.length < b →
      ∀ c, (batchesOf b ws buf).getLast? = some c →
        c.length =
          (if (buf.length + ws.length) % b = 0 then b else (buf.length + ws.length) % b) := by
  intro ws
  induction ws with
  | nil =>
    intro buf hbuf c hc
    rw [batchesOf_nil] at hc
    by_cases h : 0 < buf.length
    · rw [if_pos h] at hc
      simp only [List.getLast?_singleton, Option.some_inj] at hc
      rcases hc with rfl
      have hmod : buf.length % b = buf.length := Nat.mod_eq_of_lt hbuf
      simp only [List.length_nil, Nat.add_zero, hmod]
      rw [if_neg (by omega)]
    · rw [if_neg h] at hc
      simp at hc
  | cons w ws ih =>
    intro buf hbuf c hc
    rw [batchesOf_cons] at hc
    have hstep : (buf ++ [w]).length = buf.length + 1 := by simp
    by_cases h : b ≤ (buf ++ [w]).length
    · rw [if_pos h] at hc
      rw [hstep] at h
      have hlen : buf.length + 1 = b := by omega
      rcases ws with _ | ⟨w2, ws2⟩
      · have h0 : batchesOf b ([] : List W) ([] : List W) = [] := rfl
        rw [h0] at hc
        simp only [List.getLast?_singleton, Option.some_inj] at hc
        rcases hc with rfl
        have hc1 : buf.length + ([w] : List W).length = b := by simp; omega
        rw [hc1, Nat.mod_self, if_pos rfl, hstep]
        omega
      · have hne : batchesOf b (w2 :: ws2) ([] : List W) ≠ [] :=
          batchesOf_ne_nil b (w2 :: ws2) [] (List.cons_ne_nil w2 ws2)
        rcases hrest : batchesOf b (w2 :: ws2) ([] : List W) with _ | ⟨r, rs⟩
        · exact absurd hrest hne
        · rw [hrest, List.getLast?_cons_cons] at hc
          have hmem := ih [] (by simp only [List.length_nil]; omega) c
          rw [hrest] at hmem
          have hcl := hmem hc
          simp only [List.length_nil, Nat.zero_add] at hcl
          have hmodeq : (buf.length + (w :: w2 :: ws2).length) % b = (w2 :: ws2).length % b := by
            simp only [List.length_cons]
            have heq : buf.length + (ws2.length + 1 + 1) = ws2.length + 1 + b := by omega
            rw [heq, Nat.add_mod_right]
          rw [hmodeq]
          exact hcl
    · rw [if_neg h] at hc
      rw [hstep] at h
      have hrec := ih (buf ++ [w]) (by rw [hstep]; omega) c hc
      rw [hstep] at hrec
      have harith : buf.length + (w :: ws).length = buf.length + 1 + ws.length := by
        simp only [List.length_cons]; omega
      rw [harith]
      exact hrec

/-- When the whole window sequence fits in exactly one batch, the loop
flushes it as a single batch containing all windows. -/
theorem batchesOf_single (b : Nat) :
    ∀ (ws buf : List W), ws ≠ [] → buf.length + ws.length = b →
      batchesOf b ws buf = [buf ++ ws] := by
  intro ws
  induction ws with
  | nil => intro buf h; exact absurd rfl h
  | cons w ws ih =>
    intro buf _ hlen
    rw [batchesOf_cons]
    have hstep : (buf ++ [w]).length = buf.length + 1 := by simp
    simp only [List.length_cons] at hlen
    rcases ws with _ | ⟨w2, ws2⟩
    · simp only [List.length_nil, Nat.zero_add] at hlen
      rw [if_pos (by rw [hstep]; omega)]
      have h0 : batchesOf b ([] : List W) ([] : List W) = [] := rfl
      rw [h0]
    · rw [if_neg (by
        rw [hstep]
        simp only [List.length_cons] at hlen
        omega)]
      rw [ih (buf ++ [w]) (List.cons_ne_nil w2 ws2) (by
        rw [hstep]
        simp only [List.length_cons] at hlen ⊢
        omega)]
      simp

/-! ## The predict_scene loop computes batched folds -/

/-- Invariant of predict_scene's buffering loop: starting from any
buffered windows (with their chips) and any accumulated Labels and call
trace, running the loop over the remaining windows and flushing the final
partial buffer produces exactly the Labels obtained by merging the hooked
batch results in order, and records exactly the batches of batchesOf. -/
theorem predict_loop_traced (pl : PipelineM E W C L) (sc : SceneM E W C L)
    (bk : BackendM W C L) :
    ∀ (ws : List W) (labels : L) (bw : List W) (calls : List (List W)),
      predictFinishT pl sc bk
          (ws.foldl (predictStepT pl sc bk) (labels, bw.map sc.get_chip, bw, calls))
        = ((batchesOf pl.predict_batch_sz ws bw).foldl
             (fun acc c => pl.mergeLabels acc (batchResult pl sc bk c)) labels,
           calls ++ batchesOf pl.predict_batch_sz ws bw) := by
  intro ws
  induction ws with
  | nil =>
    intro labels bw calls
    rw [List.foldl_nil, batchesOf_nil]
    by_cases h : 0 < bw.length
    · rw [if_pos h]
      show predictFinishT pl sc bk (labels, bw.map sc.get_chip, bw, calls) = _
      rw [predictFinishT]
      rw [if_pos (by rw [List.length_map]; exact h)]
      rw [List.foldl_cons, List.foldl_nil]
      rfl
    · rw [if_neg h]
      show predictFinishT pl sc bk (labels, bw.map sc.get_chip, bw, calls) = _
      rw [predictFinishT]
      rw [if_neg (by rw [List.length_map]; exact h)]
      simp
  | cons w ws ih =>
    intro labels bw calls
    rw [List.foldl_cons, batchesOf_cons]
    have hmap : bw.map sc.get_chip ++ [sc.get_chip w] = (bw ++ [w]).map sc.get_chip := by
      simp
    have hcond : (pl.predict_batch_sz ≤ (bw.map sc.get_chip ++ [sc.get_chip w]).length)
        = (pl.predict_batch_sz ≤ (bw ++ [w]).length) := by
      rw [hmap, List.length_map]
    rw [predictStepT]
    by_cases h : pl.predict_batch_sz ≤ (bw ++ [w]).length
    · rw [if_pos (by rw [hcond]; exact h), if_pos h]
      rw [hmap]
      have hstart : ([] : List C) = ([] : List W).map sc.get_chip := rfl
      rw [hstart, ih (predictFlush pl sc bk labels ((bw ++ [w]).map sc.get_chip) (bw ++ [w]))
        [] (calls ++ [bw ++ [w]])]
      rw [List.foldl_cons]
      have hflush : predictFlush pl sc bk labels ((bw ++ [w]).map sc.get_chip) (bw ++ [w])
          = pl.mergeLabels labels (batchResult pl sc bk (bw ++ [w])) := rfl
      rw [hflush, List.append_assoc]
      rfl
    · rw [if_neg (by rw [hcond]; exact h), if_neg h]
      rw [hmap]
      exact ih labels (bw ++ [w]) calls

/-- Projection of the instrumented loop state onto the uninstrumented
one. -/
def dropTrace : L × List C × List W × List (List W) → L × List C × List W
  | (labels, bc, bw, _) => (labels, bc, bw)

theorem predictStep_dropTrace (pl : PipelineM E W C L) (sc : SceneM E W C L)
    (bk : BackendM W C L) (st : L × List C × List W × List (List W)) (w : W) :
    dropTrace (predictStepT pl sc bk st w) = predictStep pl sc bk (dropTrace st) w := by
  rcases st with ⟨labels, bc, bw, calls⟩
  simp only [predictStepT, predictStep, dropTrace]
  by_cases h : pl.predict_batch_sz ≤ (bc ++ [sc.get_chip w]).length
  · rw [if_pos h, if_pos h]
  · rw [if_neg h, if_neg h]

theorem foldl_dropTrace (pl : PipelineM E W C L) (sc : SceneM E W C L)
    (bk : BackendM W C L) :
    ∀ (ws : List W) (st : L × List C × List W × List (List W)),
      dropTrace (ws.foldl (predictStepT pl sc bk) st)
        = ws.foldl (predictStep pl sc bk) (dropTrace st) := by
  intro ws
  induction ws with
  | nil => intro st; rfl
  | cons w ws ih =>
    intro st
    rw [List.foldl_cons, List.foldl_cons, ih, predictStep_dropTrace]

theorem predictFinish_dropTrace (pl : PipelineM E W C L) (sc : SceneM E W C L)
    (bk : BackendM W C L) (st : L × List C × List W × List (List W)) :
    predictFinish pl sc bk (dropTrace st) = (predictFinishT pl sc bk st).1 := by
  rcases st with ⟨labels, bc, bw, calls⟩
  simp only [predictFinish, predictFinishT, dropTrace]
  by_cases h : 0 < bc.length
  · rw [if_pos h, if_pos h]
  · rw [if_neg h, if_neg h]

/-- predict_scene returns the Labels component of its instrumented
version. -/
theorem predict_scene_eq_traced (pl : PipelineM E W C L) (sc : SceneM E W C L)
    (bk : BackendM W C L) :
    predict_scene pl sc bk = (predict_scene_traced pl sc bk).1 := by
  rw [predict_scene, predict_scene_traced]
  have h0 : (sc.empty_labels, ([] : List C), ([] : List W))
      = dropTrace (sc.empty_labels, ([] : List C), ([] : List W), ([] : List (List W))) := rfl
  rw [h0, ← foldl_dropTrace, predictFinish_dropTrace]

/-- The batches passed to backend.predict by predict_scene are exactly
the batches computed by batchesOf on the generated window sequence. -/
theorem predict_scene_calls (pl : PipelineM E W C L) (sc : SceneM E W C L)
    (bk : BackendM W C L) :
    (predict_scene_traced pl sc bk).2
      = batchesOf pl.predict_batch_sz (pl.get_predict_windows sc.extent) [] := by
  rw [predict_scene_traced]
  have h0 : ([] : List C) = ([] : List W).map sc.get_chip := rfl
  rw [h0, predict_loop_traced pl sc bk (pl.get_predict_windows sc.extent) sc.empty_labels [] []]
  simp

/-- predict_scene agrees with its declarative batched-fold form. -/
theorem predict_scene_eq_spec (pl : PipelineM E W C L) (sc : SceneM E W C L)
    (bk : BackendM W C L) :
    predict_scene pl sc bk = predict_scene_spec pl sc bk := by
  rw [predict_scene_eq_traced, predict_scene_traced, predict_scene_spec]
  have h0 : ([] : List C) = ([] : List W).map sc.get_chip := rfl
  rw [h0, predict_loop_traced pl sc bk (pl.get_predict_windows sc.extent) sc.empty_labels [] []]

/-! ## Merging batch results under an additive backend -/

/-- Folding merged per-batch values from an accumulator collapses to a
single merge of the value of the concatenated batches, provided merge is
associative and the per-batch value is additive over concatenation of
nonempty batches. -/
theorem foldl_merge_of_hom {W2 L2 : Type} (merge : L2 → L2 → L2) (p : List W2 → L2)
    (hassoc : ∀ x y z : L2, merge (merge x y) z = merge x (merge y z))
    (hhom : ∀ xs ys : List W2, xs ≠ [] → ys ≠ [] → p (xs ++ ys) = merge (p xs) (p ys)) :
    ∀ (cs : List (List W2)) (a : L2), cs ≠ [] → (∀ c ∈ cs, c ≠ []) →
      cs.foldl (fun x c => merge x (p c)) a = merge a (p cs.flatten) := by
  intro cs
  induction cs with
  | nil => intro a h; exact absurd rfl h
  | cons c rest ih =>
    intro a _ hne
    have hcne : c ≠ [] := hne c (List.mem_cons_self c rest)
    rcases rest with _ | ⟨c2, cs2⟩
    · rw [List.foldl_cons, List.foldl_nil]
      have hfl : ([c] : List (List W2)).flatten = c := by simp
      rw [hfl]
    · rw [List.foldl_cons]
      have hall : ∀ x ∈ (c2 :: cs2 : List (List W2)), x ≠ [] :=
        fun x hx => hne x (List.mem_cons_of_mem c hx)
      rw [ih (merge a (p c)) (List.cons_ne_nil c2 cs2) hall]
      have hc2ne : c2 ≠ [] := hall c2 (List.mem_cons_self c2 cs2)
      have hjoinne : (c2 :: cs2 : List (List W2)).flatten ≠ [] := by
        rw [List.flatten_cons]
        intro hn
        rcases List.append_eq_nil.mp hn with ⟨h1, _⟩
        exact hc2ne h1
      rw [hassoc, ← hhom c ((c2 :: cs2 : List (List W2)).flatten) hcne hjoinne,
        ← List.flatten_cons]

/-! ## Properties of the predict command -/

/-- The scene loop of RVPipeline.predict emits one four-event block per
scene, in scene order. -/
theorem predictScenesLoop_eq_flatten {SC S B L2 : Type} (pl : PredictPipelineM SC S B L2)
    (backend : B) :
    ∀ scenes : List S,
      predictScenesLoop pl backend scenes = (scenes.map (sceneBlock pl backend)).flatten := by
  intro scenes
  induction scenes with
  | nil => rfl
  | cons s rest ih =>
    simp only [predictScenesLoop, List.map_cons, List.flatten_cons, ih, sceneBlock]
    rfl

/-- Events emitted by the scene loop: none of them builds the backend or
loads the model, and every predict_scene call in them uses the backend
handle the loop was given. -/
theorem predictScenesLoop_events {SC S B L2 : Type} (pl : PredictPipelineM SC S B L2)
    (backend : B) :
    ∀ (scenes : List S), ∀ e ∈ predictScenesLoop pl backend scenes,
      e.isBuild = false ∧ e.isLoad = false
        ∧ ∀ (s : S) (b2 : B) (l : L2), e = PredictEvent.predictSceneCall s b2 l → b2 = backend := by
  intro scenes
  induction scenes with
  | nil => intro e he; simp [predictScenesLoop] at he
  | cons s rest ih =>
    intro e he
    simp only [predictScenesLoop, List.mem_cons] at he
    rcases he with rfl | rfl | rfl | rfl | he
    · exact ⟨rfl, rfl, fun s2 b2 l2 h => nomatch h⟩
    · refine ⟨rfl, rfl, fun s2 b2 l2 h => ?_⟩
      injection h with h1 h2 h3
      exact h2.symm
    · exact ⟨rfl, rfl, fun s2 b2 l2 h => nomatch h⟩
    · exact ⟨rfl, rfl, fun s2 b2 l2 h => nomatch h⟩
    · exact ih e he

/-! ## Properties of the bundle command -/

/-- The filename-copy loop only emits copy events. -/
theorem copyFilesFrom_events {Er : Type} (cfg : BundleConfigM Er) (base : String) :
    ∀ fns, ∀ e ∈ (copyFilesFrom cfg base fns).1, ∃ fn, e = BundleEvent.copyFile fn := by
  intro fns
  induction fns with
  | nil => intro e he; simp [copyFilesFrom] at he
  | cons fn rest ih =>
    intro e he
    simp only [copyFilesFrom] at he
    rcases hdl : cfg.download (cfg.join_path base fn) with e0 | v
    · rw [hdl] at he; simp at he
    · rw [hdl] at he
      simp only [List.mem_cons] at he
      rcases he with rfl | he
      · exact ⟨fn, rfl⟩
      · exact ih e he

/-- If any declared filename fails to download, the filename-copy loop
reports an error. -/
theorem copyFilesFrom_fails {Er : Type} (cfg : BundleConfigM Er) (base : String) :
    ∀ fns, (∃ fn ∈ fns, exceptIsError (cfg.download (cfg.join_path base fn)) = true) →
      (copyFilesFrom cfg base fns).2.isSome = true := by
  intro fns
  induction fns with
  | nil => intro h; simp at h
  | cons fn rest ih =>
    intro h
    simp only [copyFilesFrom]
    rcases hdl : cfg.download (cfg.join_path base fn) with e0 | v
    · rfl
    · rcases h with ⟨fn2, hfn2, herr⟩
      rcases List.mem_cons.mp hfn2 with rfl | hfn2
      · rw [hdl] at herr; simp [exceptIsError] at herr
      · exact ih ⟨fn2, hfn2, herr⟩

/-- The analyzer loop only emits copy events. -/
theorem copyAnalyzerFiles_events {Er : Type} (cfg : BundleConfigM Er) :
    ∀ fnss, ∀ e ∈ (copyAnalyzerFiles cfg fnss).1, ∃ fn, e = BundleEvent.copyFile fn := by
  intro fnss
  induction fnss with
  | nil => intro e he; simp [copyAnalyzerFiles] at he
  | cons fns rest ih =>
    intro e he
    simp only [copyAnalyzerFiles] at he
    rcases herr : (copyFilesFrom cfg cfg.analyze_uri fns).2 with _ | e0
    · rw [herr] at he
      simp only [List.mem_append] at he
      rcases he with he | he
      · exact copyFilesFrom_events cfg cfg.analyze_uri fns e he
      · exact ih e he
    · rw [herr] at he
      exact copyFilesFrom_events cfg cfg.analyze_uri fns e he

/-- If any analyzer-declared filename fails to download, the analyzer
loop reports an error. -/
theorem copyAnalyzerFiles_fails {Er : Type} (cfg : BundleConfigM Er) :
    ∀ fnss, (∃ fns ∈ fnss, ∃ fn ∈ fns,
        exceptIsError (cfg.download (cfg.join_path cfg.analyze_uri fn)) = true) →
      (copyAnalyzerFiles cfg fnss).2.isSome = true := by
  intro fnss
  induction fnss with
  | nil => intro h; simp at h
  | cons fns rest ih =>
    intro h
    simp only [copyAnalyzerFiles]
    rcases herr : (copyFilesFrom cfg cfg.analyze_uri fns).2 with _ | e0
    · rcases h with ⟨fns2, hfns2, hfail⟩
      rcases List.mem_cons.mp hfns2 with rfl | hfns2
      · have := copyFilesFrom_fails cfg cfg.analyze_uri fns2 hfail
        rw [herr] at this
        simp at this
      · exact ih ⟨fns2, hfns2, hfail⟩
    · rfl

/-! ## Properties of channel-order parsing -/

/-- When int() accepts every token, the conversion succeeds and returns
the converted integers in token order. -/
theorem parseIntTokens_ok (pyInt : List Char → Option Int) :
    ∀ ts : List (List Char), (∀ t ∈ ts, (pyInt t).isSome = true) →
      parseIntTokens pyInt ts = Except.ok (ts.filterMap pyInt) := by
  intro ts
  induction ts with
  | nil => intro h; rfl
  | cons t rest ih =>
    intro h
    have ht := h t (List.mem_cons_self t rest)
    rcases hp : pyInt t with _ | n
    · rw [hp] at ht; simp at ht
    · simp only [parseIntTokens, hp]
      rw [ih (fun t2 ht2 => h t2 (List.mem_cons_of_mem t ht2))]
      simp [List.filterMap_cons, hp]

/-- When int() rejects some token, the conversion fails. -/
theorem parseIntTokens_fails (pyInt : List Char → Option Int) :
    ∀ ts : List (List Char), (∃ t ∈ ts, pyInt t = none) →
      ∃ e, parseIntTokens pyInt ts = Except.error e := by
  intro ts
  induction ts with
  | nil => intro h; simp at h
  | cons t rest ih =>
    intro h
    rcases hp : pyInt t with _ | n
    · exact ⟨"invalid literal for int", by simp only [parseIntTokens, hp]⟩
    · rcases h with ⟨t2, ht2, hnone⟩
      rcases List.mem_cons.mp ht2 with rfl | ht2
      · rw [hp] at hnone; simp at hnone
      · rcases ih ⟨t2, ht2, hnone⟩ with ⟨e, he⟩
        exact ⟨e, by simp only [parseIntTokens, hp, he]⟩

/-- The batched merge fold over a window sequence does not depend on the
batch size, provided merge is associative and the per-batch value is
additive over concatenation of nonempty batches. -/
theorem batched_fold_indep {W2 L2 : Type} (merge : L2 → L2 → L2) (q : List W2 → L2)
    (hassoc : ∀ x y z : L2, merge (merge x y) z = merge x (merge y z))
    (hhom : ∀ xs ys : List W2, xs ≠ [] → ys ≠ [] → q (xs ++ ys) = merge (q xs) (q ys)) :
    ∀ (ws : List W2) (b1 b2 : Nat) (e : L2),
      (batchesOf b1 ws []).foldl (fun a c => merge a (q c)) e
        = (batchesOf b2 ws []).foldl (fun a c => merge a (q c)) e := by
  intro ws b1 b2 e
  rcases ws with _ | ⟨w, wr⟩
  · rfl
  · have h1 := foldl_merge_of_hom merge q hassoc hhom (batchesOf b1 (w :: wr) []) e
      (batchesOf_ne_nil b1 (w :: wr) [] (List.cons_ne_nil w wr))
      (batchesOf_mem_ne_nil b1 (w :: wr) [])
    have h2 := foldl_merge_of_hom merge q hassoc hhom (batchesOf b2 (w :: wr) []) e
      (batchesOf_ne_nil b2 (w :: wr) [] (List.cons_ne_nil w wr))
      (batchesOf_mem_ne_nil b2 (w :: wr) [])
    rw [h1, h2, batchesOf_flatten, batchesOf_flatten]

/-! ## Claims -/

/-- C1 (counterexample): with an associative Labels merge, an identity
post_process_batch hook and batch size 1 <= b, the Labels returned by
predict_scene can still differ from the Labels of a run whose batch size
makes a single batch of all windows: the constant backend returns 1 for
every batch, so two windows at batch size 1 yield 0 + 1 + 1 = 2 while the
single batch yields 0 + 1 = 1.  The claim's hypotheses hold at this
input, yet its conclusion fails, so the claim as stated is false. -/
theorem C1_counterexample :
    (∀ x y z : Nat, pipeTwoWindows.mergeLabels (pipeTwoWindows.mergeLabels x y) z
        = pipeTwoWindows.mergeLabels x (pipeTwoWindows.mergeLabels y z))
    ∧ pipeTwoWindows.post_process_batch = (fun _ _ labels => labels)
    ∧ 1 ≤ pipeTwoWindows.predict_batch_sz
    ∧ (predict_scene_traced { pipeTwoWindows with
          predict_batch_sz := (pipeTwoWindows.get_predict_windows sceneNat.extent).length }
        sceneNat backendConst).2 = [[0, 1]]
    ∧ predict_scene pipeTwoWindows sceneNat backendConst
        ≠ predict_scene { pipeTwoWindows with
            predict_batch_sz := (pipeTwoWindows.get_predict_windows sceneNat.extent).length }
          sceneNat backendConst :=
  ⟨fun x y z => Nat.add_assoc x y z, rfl, by decide, by decide, by decide⟩

/-- C1 (amended): for every finite window sequence and every batch size
b >= 1, assuming the Labels merge operation is associative, the
post_process_batch hook is the identity, and additionally that the
backend's prediction is additive over concatenation of nonempty batches,
the scene Labels returned by predict_scene equal the Labels of the run
whose batch size is the whole window count — a run that makes at most one
backend invocation, on a single batch containing all windows; under these
assumptions the batch size is not observable in the returned Labels. -/
theorem C1_batch_size_unobservable (pl : PipelineM E W C L) (sc : SceneM E W C L)
    (bk : BackendM W C L)
    (hb : 1 ≤ pl.predict_batch_sz)
    (hassoc : ∀ x y z : L,
      pl.mergeLabels (pl.mergeLabels x y) z = pl.mergeLabels x (pl.mergeLabels y z))
    (hppb : pl.post_process_batch = fun _ _ labels => labels)
    (hhom : ∀ xs ys : List W, xs ≠ [] → ys ≠ [] →
        bk.predict ((xs ++ ys).map sc.get_chip) (xs ++ ys)
          = pl.mergeLabels (bk.predict (xs.map sc.get_chip) xs)
              (bk.predict (ys.map sc.get_chip) ys)) :
    predict_scene pl sc bk
        = predict_scene { pl with
            predict_batch_sz := (pl.get_predict_windows sc.extent).length } sc bk
      ∧ (predict_scene_traced { pl with
            predict_batch_sz := (pl.get_predict_windows sc.extent).length } sc bk).2.flatten
          = pl.get_predict_windows sc.extent
      ∧ (predict_scene_traced { pl with
            predict_batch_sz := (pl.get_predict_windows sc.extent).length } sc bk).2.length
          ≤ 1 := by
  refine ⟨?_, ?_, ?_⟩
  · rw [predict_scene_eq_spec, predict_scene_eq_spec]
    show pl.post_process_predictions
        ((batchesOf pl.predict_batch_sz (pl.get_predict_windows sc.extent) []).foldl
          (fun acc c => pl.mergeLabels acc (batchResult pl sc bk c)) sc.empty_labels) sc
      = pl.post_process_predictions
        ((batchesOf (pl.get_predict_windows sc.extent).length
            (pl.get_predict_windows sc.extent) []).foldl
          (fun acc c => pl.mergeLabels acc (batchResult pl sc bk c)) sc.empty_labels) sc
    have hq : (fun (acc : L) (c : List W) => pl.mergeLabels acc (batchResult pl sc bk c))
        = fun acc c => pl.mergeLabels acc (bk.predict (c.map sc.get_chip) c) := by
      funext acc c
      rw [batchResult, hppb]
    rw [hq]
    rw [batched_fold_indep pl.mergeLabels (fun c => bk.predict (c.map sc.get_chip) c)
      hassoc hhom (pl.get_predict_windows sc.extent) pl.predict_batch_sz
      (pl.get_predict_windows sc.extent).length sc.empty_labels]
  · rw [predict_scene_calls]
    show (batchesOf (pl.get_predict_windows sc.extent).length
        (pl.get_predict_windows sc.extent) ([] : List W)).flatten
      = pl.get_predict_windows sc.extent
    rw [batchesOf_flatten, List.nil_append]
  · rw [predict_scene_calls]
    show (batchesOf (pl.get_predict_windows sc.extent).length
        (pl.get_predict_windows sc.extent) ([] : List W)).length ≤ 1
    rcases hws : pl.get_predict_windows sc.extent with _ | ⟨w, wr⟩
    · rw [batchesOf_nil]
      simp
    · rw [batchesOf_single (w :: wr).length (w :: wr) [] (List.cons_ne_nil w wr)
        (by simp)]
      simp

/-- C1 (witness): the amended batching law evaluated on three windows
with batch size 2, additive merge and the batch-cardinality backend. -/
theorem C1_witness :
    predict_scene pipeThreeWindows sceneNat backendCount
        = predict_scene { pipeThreeWindows with
            predict_batch_sz := (pipeThreeWindows.get_predict_windows sceneNat.extent).length }
          sceneNat backendCount
      ∧ (predict_scene_traced { pipeThreeWindows with
            predict_batch_sz := (pipeThreeWindows.get_predict_windows sceneNat.extent).length }
          sceneNat backendCount).2.flatten
          = pipeThreeWindows.get_predict_windows sceneNat.extent
      ∧ (predict_scene_traced { pipeThreeWindows with
            predict_batch_sz := (pipeThreeWindows.get_predict_windows sceneNat.extent).length }
          sceneNat backendCount).2.length ≤ 1 :=
  C1_batch_size_unobservable pipeThreeWindows sceneNat backendCount (by decide)
    (fun x y z => Nat.add_assoc x y z) rfl
    (fun xs ys _ _ => by
      show (xs ++ ys).length = pipeThreeWindows.mergeLabels xs.length ys.length
      simp [pipeThreeWindows, pipeTwoWindows])

/-- C2: for a window sequence of length n and batch size b >= 1,
predict_scene invokes backend.predict exactly ceil(n/b) times; the
batches concatenate to the window sequence in generation order (so each
invocation receives the next contiguous block and every window is in
exactly one batch), every batch before the last has size exactly b, and
the final batch — the one flush after the sequence is exhausted — has
size n mod b when b does not divide n, and b otherwise.  The backend
invocations are read off predict_scene_traced, whose Labels component the
first conjunct proves equal to predict_scene itself, so the recorded
batches are those of the claimed computation. -/
theorem C2_batching_invocations (pl : PipelineM E W C L) (sc : SceneM E W C L)
    (bk : BackendM W C L) (hb : 1 ≤ pl.predict_batch_sz) :
    (predict_scene pl sc bk = (predict_scene_traced pl sc bk).1)
    ∧ ((predict_scene_traced pl sc bk).2.flatten = pl.get_predict_windows sc.extent)
    ∧ ((predict_scene_traced pl sc bk).2.length
        = ((pl.get_predict_windows sc.extent).length + pl.predict_batch_sz - 1)
            / pl.predict_batch_sz)
    ∧ (∀ c ∈ (predict_scene_traced pl sc bk).2.dropLast, c.length = pl.predict_batch_sz)
    ∧ (∀ c, (predict_scene_traced pl sc bk).2.getLast? = some c →
        c.length =
          (if (pl.get_predict_windows sc.extent).length % pl.predict_batch_sz = 0
           then pl.predict_batch_sz
           else (pl.get_predict_windows sc.extent).length % pl.predict_batch_sz)) := by
  refine ⟨predict_scene_eq_traced pl sc bk, ?_⟩
  rw [predict_scene_calls]
  refine ⟨?_, ?_, ?_, ?_⟩
  · rw [batchesOf_flatten, List.nil_append]
  · rw [batchesOf_length pl.predict_batch_sz (by omega) (pl.get_predict_windows sc.extent) []
      (by simp only [List.length_nil]; omega)]
    simp only [List.length_nil, Nat.zero_add]
  · intro c hc
    exact batchesOf_dropLast pl.predict_batch_sz (pl.get_predict_windows sc.extent) []
      (by simp only [List.length_nil]; omega) c hc
  · intro c hc
    have := batchesOf_getLast pl.predict_batch_sz (by omega) (pl.get_predict_windows sc.extent)
      [] (by simp only [List.length_nil]; omega) c hc
    simpa using this

/-- C2 (witness): batch size 2 on the five-window pipeline makes exactly
3 backend invocations whose batches concatenate to the window sequence,
with every batch but the last of size 2 and the last of size 5 mod 2. -/
theorem C2_witness :
    ((predict_scene pipeFiveWindows sceneNat backendCount
        = (predict_scene_traced pipeFiveWindows sceneNat backendCount).1)
    ∧ ((predict_scene_traced pipeFiveWindows sceneNat backendCount).2.flatten
        = pipeFiveWindows.get_predict_windows sceneNat.extent)
    ∧ ((predict_scene_traced pipeFiveWindows sceneNat backendCount).2.length
        = ((pipeFiveWindows.get_predict_windows sceneNat.extent).length
            + pipeFiveWindows.predict_batch_sz - 1) / pipeFiveWindows.predict_batch_sz)
    ∧ (∀ c ∈ (predict_scene_traced pipeFiveWindows sceneNat backendCount).2.dropLast,
        c.length = pipeFiveWindows.predict_batch_sz)
    ∧ (∀ c, (predict_scene_traced pipeFiveWindows sceneNat backendCount).2.getLast? = some c →
        c.length =
          (if (pipeFiveWindows.get_predict_windows sceneNat.extent).length
                % pipeFiveWindows.predict_batch_sz = 0
           then pipeFiveWindows.predict_batch_sz
           else (pipeFiveWindows.get_predict_windows sceneNat.extent).length
                % pipeFiveWindows.predict_batch_sz)))
    ∧ (predict_scene_traced pipeFiveWindows sceneNat backendCount).2
        = [[0, 1], [2, 3], [4]] :=
  ⟨C2_batching_invocations pipeFiveWindows sceneNat backendCount (by decide), by decide⟩

/-- C3: in predict_scene, every batch's raw backend Labels pass through
the post_process_batch hook before being merged into the running scene
accumulator, and the merged scene Labels pass through the
post_process_predictions hook exactly once before being returned: the
imperative buffering loop equals the declarative form that makes this
structure explicit. -/
theorem C3_post_process_hooks (pl : PipelineM E W C L) (sc : SceneM E W C L)
    (bk : BackendM W C L) :
    predict_scene pl sc bk = predict_scene_spec pl sc bk :=
  predict_scene_eq_spec pl sc bk

/-- C9: when the prediction-window sequence is empty, predict_scene
makes no backend invocation and returns the post_process_predictions
hook applied to the label store's empty Labels. -/
theorem C9_empty_window_sequence (pl : PipelineM E W C L) (sc : SceneM E W C L)
    (bk : BackendM W C L) (h : pl.get_predict_windows sc.extent = []) :
    predict_scene pl sc bk = pl.post_process_predictions sc.empty_labels sc
    ∧ (predict_scene_traced pl sc bk).2 = [] := by
  constructor
  · rw [predict_scene_eq_spec, predict_scene_spec, h]
    rfl
  · rw [predict_scene_calls, h]
    rfl

/-- C9 (witness): the empty-window pipeline makes no backend invocation
and returns the post-processed empty Labels. -/
theorem C9_witness :
    predict_scene pipeNoWindows sceneNat backendCount
        = pipeNoWindows.post_process_predictions sceneNat.empty_labels sceneNat
    ∧ (predict_scene_traced pipeNoWindows sceneNat backendCount).2 = [] :=
  C9_empty_window_sequence pipeNoWindows sceneNat backendCount rfl

/-- C4: for every split, the predict command's trace is the backend setup
(only when the cache is empty), followed by one
activate / predict_scene / save / deactivate block per validation scene
of the shard's dataset subset, in order, followed — only when the subset
has test scenes — by one such block per test scene, in order; each block
saves exactly the Labels predict_scene produced for that scene to that
scene's prediction label store, inside its activation scope. -/
theorem C4_predict_scene_order {SC S B L2 : Type} (pl : PredictPipelineM SC S B L2)
    (cached : Option B) (split_ind num_splits : Nat) :
    (predictCmd pl cached split_ind num_splits).2
      = (match cached with
         | none => [PredictEvent.buildBackend, PredictEvent.loadModel]
         | some _ => [])
        ++ ((pl.get_split_config split_ind num_splits).validation_scenes.map
              (fun scfg =>
                sceneBlock pl (cached.getD pl.build_backend) (pl.build_scene scfg))).flatten
        ++ (if (pl.get_split_config split_ind num_splits).test_scenes.isEmpty then []
            else ((pl.get_split_config split_ind num_splits).test_scenes.map
              (fun scfg =>
                sceneBlock pl (cached.getD pl.build_backend) (pl.build_scene scfg))).flatten) := by
  rcases cached with _ | b0 <;>
    simp only [predictCmd, Option.getD, predictScenesLoop_eq_flatten, List.map_map,
      Function.comp] <;>
    rfl

/-- C5: within one invocation of the predict command, the backend is
built at most once and load_model is called at most once, both before any
other event; the invocation caches a backend handle, and that same handle
is the one passed to every predict_scene call of the invocation. -/
theorem C5_backend_built_once {SC S B L2 : Type} (pl : PredictPipelineM SC S B L2)
    (cached : Option B) (split_ind num_splits : Nat) :
    ∃ b, (predictCmd pl cached split_ind num_splits).1 = some b
      ∧ (∀ (s : S) (b2 : B) (l : L2),
          PredictEvent.predictSceneCall s b2 l ∈ (predictCmd pl cached split_ind num_splits).2
            → b2 = b)
      ∧ (predictCmd pl cached split_ind num_splits).2.countP (fun e => e.isBuild) ≤ 1
      ∧ (predictCmd pl cached split_ind num_splits).2.countP (fun e => e.isLoad) ≤ 1
      ∧ ∃ pre rest, (predictCmd pl cached split_ind num_splits).2 = pre ++ rest
          ∧ (∀ e ∈ pre, e = PredictEvent.buildBackend ∨ e = PredictEvent.loadModel)
          ∧ (∀ e ∈ rest, e.isBuild = false ∧ e.isLoad = false) := by
  rcases cached with _ | b0
  · have hloopsP : ∀ e ∈ (predictScenesLoop pl pl.build_backend
          ((pl.get_split_config split_ind num_splits).validation_scenes.map pl.build_scene)
        ++ (if (pl.get_split_config split_ind num_splits).test_scenes.isEmpty then []
            else predictScenesLoop pl pl.build_backend
              ((pl.get_split_config split_ind num_splits).test_scenes.map pl.build_scene))),
        e.isBuild = false ∧ e.isLoad = false
          ∧ ∀ (s : S) (b2 : B) (l : L2),
              e = PredictEvent.predictSceneCall s b2 l → b2 = pl.build_backend := by
      intro e he
      rcases List.mem_append.mp he with he | he
      · exact predictScenesLoop_events pl pl.build_backend _ e he
      · by_cases hE : (pl.get_split_config split_ind num_splits).test_scenes.isEmpty
        · rw [if_pos hE] at he; simp at he
        · rw [if_neg hE] at he
          exact predictScenesLoop_events pl pl.build_backend _ e he
    have htr : (predictCmd pl none split_ind num_splits).2
        = PredictEvent.buildBackend :: PredictEvent.loadModel ::
          (predictScenesLoop pl pl.build_backend
            ((pl.get_split_config split_ind num_splits).validation_scenes.map pl.build_scene)
           ++ (if (pl.get_split_config split_ind num_splits).test_scenes.isEmpty then []
               else predictScenesLoop pl pl.build_backend
                 ((pl.get_split_config split_ind num_splits).test_scenes.map
                   pl.build_scene))) := rfl
    refine ⟨pl.build_backend, rfl, ?_, ?_, ?_, ?_⟩
    · intro s b2 l hmem
      rw [htr] at hmem
      rcases List.mem_cons.mp hmem with h1 | hmem
      · exact nomatch h1
      · rcases List.mem_cons.mp hmem with h1 | hmem
        · exact nomatch h1
        · exact (hloopsP _ hmem).2.2 s b2 l rfl
    · rw [htr]
      have h0 : (predictScenesLoop pl pl.build_backend
            ((pl.get_split_config split_ind num_splits).validation_scenes.map pl.build_scene)
          ++ (if (pl.get_split_config split_ind num_splits).test_scenes.isEmpty then []
              else predictScenesLoop pl pl.build_backend
                ((pl.get_split_config split_ind num_splits).test_scenes.map
                  pl.build_scene))).countP (fun e => e.isBuild) = 0 :=
        List.countP_eq_zero.mpr (fun e he => by simp [(hloopsP e he).1])
      simp only [List.countP_cons, h0]
      rw [if_neg (fun hcon => nomatch hcon :
          ¬ (PredictEvent.loadModel : PredictEvent S B L2).isBuild = true)]
      rw [if_pos (show (PredictEvent.buildBackend : PredictEvent S B L2).isBuild = true from rfl)]
    · rw [htr]
      have h0 : (predictScenesLoop pl pl.build_backend
            ((pl.get_split_config split_ind num_splits).validation_scenes.map pl.build_scene)
          ++ (if (pl.get_split_config split_ind num_splits).test_scenes.isEmpty then []
              else predictScenesLoop pl pl.build_backend
                ((pl.get_split_config split_ind num_splits).test_scenes.map
                  pl.build_scene))).countP (fun e => e.isLoad) = 0 :=
        List.countP_eq_zero.mpr (fun e he => by simp [(hloopsP e he).2.1])
      simp only [List.countP_cons, h0]
      rw [if_pos (show (PredictEvent.loadModel : PredictEvent S B L2).isLoad = true from rfl)]
      rw [if_neg (fun hcon => nomatch hcon :
          ¬ (PredictEvent.buildBackend : PredictEvent S B L2).isLoad = true)]
    · refine ⟨[PredictEvent.buildBackend, PredictEvent.loadModel],
        predictScenesLoop pl pl.build_backend
          ((pl.get_split_config split_ind num_splits).validation_scenes.map pl.build_scene)
         ++ (if (pl.get_split_config split_ind num_splits).test_scenes.isEmpty then []
             else predictScenesLoop pl pl.build_backend
               ((pl.get_split_config split_ind num_splits).test_scenes.map pl.build_scene)),
        htr, ?_, ?_⟩
      · intro e he
        rcases List.mem_cons.mp he with rfl | he
        · exact Or.inl rfl
        · rcases List.mem_cons.mp he with rfl | he
          · exact Or.inr rfl
          · simp at he
      · intro e he
        exact ⟨(hloopsP e he).1, (hloopsP e he).2.1⟩
  · have hloopsP : ∀ e ∈ (predictScenesLoop pl b0
          ((pl.get_split_config split_ind num_splits).validation_scenes.map pl.build_scene)
        ++ (if (pl.get_split_config split_ind num_splits).test_scenes.isEmpty then []
            else predictScenesLoop pl b0
              ((pl.get_split_config split_ind num_splits).test_scenes.map pl.build_scene))),
        e.isBuild = false ∧ e.isLoad = false
          ∧ ∀ (s : S) (b2 : B) (l : L2),
              e = PredictEvent.predictSceneCall s b2 l → b2 = b0 := by
      intro e he
      rcases List.mem_append.mp he with he | he
      · exact predictScenesLoop_events pl b0 _ e he
      · by_cases hE : (pl.get_split_config split_ind num_splits).test_scenes.isEmpty
        · rw [if_pos hE] at he; simp at he
        · rw [if_neg hE] at he
          exact predictScenesLoop_events pl b0 _ e he
    have htr : (predictCmd pl (some b0) split_ind num_splits).2
        = predictScenesLoop pl b0
            ((pl.get_split_config split_ind num_splits).validation_scenes.map pl.build_scene)
          ++ (if (pl.get_split_config split_ind num_splits).test_scenes.isEmpty then []
              else predictScenesLoop pl b0
                ((pl.get_split_config split_ind num_splits).test_scenes.map
                  pl.build_scene)) := rfl
    refine ⟨b0, rfl, ?_, ?_, ?_, ?_⟩
    · intro s b2 l hmem
      rw [htr] at hmem
      exact (hloopsP _ hmem).2.2 s b2 l rfl
    · rw [htr]
      have h0 := List.countP_eq_zero.mpr
        (fun e he => by simp [(hloopsP e he).1] :
          ∀ e ∈ (predictScenesLoop pl b0
              ((pl.get_split_config split_ind num_splits).validation_scenes.map pl.build_scene)
            ++ (if (pl.get_split_config split_ind num_splits).test_scenes.isEmpty then []
                else predictScenesLoop pl b0
                  ((pl.get_split_config split_ind num_splits).test_scenes.map
                    pl.build_scene))), ¬ (fun e => e.isBuild) e = true)
      rw [h0]
      omega
    · rw [htr]
      have h0 := List.countP_eq_zero.mpr
        (fun e he => by simp [(hloopsP e he).2.1] :
          ∀ e ∈ (predictScenesLoop pl b0
              ((pl.get_split_config split_ind num_splits).validation_scenes.map pl.build_scene)
            ++ (if (pl.get_split_config split_ind num_splits).test_scenes.isEmpty then []
                else predictScenesLoop pl b0
                  ((pl.get_split_config split_ind num_splits).test_scenes.map
                    pl.build_scene))), ¬ (fun e => e.isLoad) e = true)
      rw [h0]
      omega
    · refine ⟨[], _, htr, ?_, ?_⟩
      · intro e he; simp at he
      · intro e he
        exact ⟨(hloopsP e he).1, (hloopsP e he).2.1⟩

/-- C10: across two successive invocations of the predict command on the
same pipeline instance (whose backend cache starts empty), the backend is
built and the model loaded during the first invocation only; the second
invocation emits no build or load event, leaves the cache unchanged, and
passes the handle cached by the first invocation to every predict_scene
call. -/
theorem C10_backend_cache_persists {SC S B L2 : Type} (pl : PredictPipelineM SC S B L2)
    (si ns si2 ns2 : Nat) :
    (PredictEvent.buildBackend ∈ (predictCmd pl none si ns).2
      ∧ PredictEvent.loadModel ∈ (predictCmd pl none si ns).2)
    ∧ (predictCmd pl none si ns).1 = some pl.build_backend
    ∧ (∀ e ∈ (predictCmd pl ((predictCmd pl none si ns).1) si2 ns2).2,
        e.isBuild = false ∧ e.isLoad = false)
    ∧ (predictCmd pl ((predictCmd pl none si ns).1) si2 ns2).1
        = (predictCmd pl none si ns).1
    ∧ (∀ (s : S) (b2 : B) (l : L2),
        PredictEvent.predictSceneCall s b2 l
            ∈ (predictCmd pl ((predictCmd pl none si ns).1) si2 ns2).2
          → b2 = pl.build_backend) := by
  have h1 : (predictCmd pl none si ns).1 = some pl.build_backend := rfl
  have hloopsP : ∀ e ∈ (predictCmd pl (some pl.build_backend) si2 ns2).2,
      e.isBuild = false ∧ e.isLoad = false
        ∧ ∀ (s : S) (b2 : B) (l : L2),
            e = PredictEvent.predictSceneCall s b2 l → b2 = pl.build_backend := by
    intro e he
    rcases List.mem_append.mp he with he | he
    · exact predictScenesLoop_events pl pl.build_backend _ e he
    · by_cases hE : (pl.get_split_config si2 ns2).test_scenes.isEmpty
      · rw [if_pos hE] at he; simp at he
      · rw [if_neg hE] at he
        exact predictScenesLoop_events pl pl.build_backend _ e he
  refine ⟨⟨List.mem_cons_self _ _, List.mem_cons_of_mem _ (List.mem_cons_self _ _)⟩,
    h1, ?_, ?_, ?_⟩
  · rw [h1]
    intro e he
    exact ⟨(hloopsP e he).1, (hloopsP e he).2.1⟩
  · rw [h1]
    rfl
  · rw [h1]
    intro s b2 l hmem
    exact (hloopsP _ hmem).2.2 s b2 l rfl

/-- C6: when the shard's dataset subset has neither train scenes nor
validation scenes, the chip command returns normally (it is a total
function here) having only built the backend: it acquires no sample
writer and writes no sample. -/
theorem C6_chip_empty_shard_noop {SC I W2 C2 L2 : Type} (pl : ChipPipelineM SC I W2 C2 L2)
    (split_ind num_splits : Nat)
    (htrain : (pl.get_split_config split_ind num_splits).train_scenes = [])
    (hval : (pl.get_split_config split_ind num_splits).validation_scenes = []) :
    chipCmd pl split_ind num_splits = [ChipEvent.buildBackend]
    ∧ (∀ e ∈ chipCmd pl split_ind num_splits, e ≠ ChipEvent.acquireWriter
        ∧ ∀ smp, e ≠ ChipEvent.writeSample smp) := by
  have htr : chipCmd pl split_ind num_splits = [ChipEvent.buildBackend] := by
    simp only [chipCmd, htrain, hval]
    rfl
  refine ⟨htr, ?_⟩
  intro e he
  rw [htr] at he
  rcases List.mem_cons.mp he with rfl | he
  · exact ⟨(fun hcon => nomatch hcon), (fun smp hcon => nomatch hcon)⟩
  · simp at he

/-- C6 (witness): the no-scene chip configuration only builds the
backend. -/
theorem C6_witness :
    ((chipPlNoScenes.get_split_config 0 1).train_scenes = []
      ∧ (chipPlNoScenes.get_split_config 0 1).validation_scenes = [])
    ∧ (chipCmd chipPlNoScenes 0 1 = [ChipEvent.buildBackend]
      ∧ (∀ e ∈ chipCmd chipPlNoScenes 0 1, e ≠ ChipEvent.acquireWriter
          ∧ ∀ smp, e ≠ ChipEvent.writeSample smp)) :=
  ⟨⟨rfl, rfl⟩, C6_chip_empty_shard_noop chipPlNoScenes 0 1 rfl rfl⟩

/-- C7: if any backend-declared or analyzer-declared artifact filename
cannot be downloaded, the bundle command fails and its trace contains no
zip and no upload event: the archive is created and uploaded only after
every declared file and the configuration have been copied. -/
theorem C7_bundle_fails_before_archive {Er : Type} (cfg : BundleConfigM Er)
    (hfail : (∃ fn ∈ cfg.backend_bundle_filenames,
          exceptIsError (cfg.download (cfg.join_path cfg.train_uri fn)) = true)
        ∨ (∃ fns ∈ cfg.analyzer_bundle_filenames, ∃ fn ∈ fns,
          exceptIsError (cfg.download (cfg.join_path cfg.analyze_uri fn)) = true)) :
    (bundleCmd cfg).2.isSome = true
    ∧ BundleEvent.zipArchive ∉ (bundleCmd cfg).1
    ∧ BundleEvent.uploadArchive ∉ (bundleCmd cfg).1 := by
  rcases h1 : (copyFilesFrom cfg cfg.train_uri cfg.backend_bundle_filenames).2 with _ | e1
  · have hback : ¬ ∃ fn ∈ cfg.backend_bundle_filenames,
        exceptIsError (cfg.download (cfg.join_path cfg.train_uri fn)) = true := by
      intro hsome
      have := copyFilesFrom_fails cfg cfg.train_uri cfg.backend_bundle_filenames hsome
      rw [h1] at this
      simp at this
    have hana : ∃ fns ∈ cfg.analyzer_bundle_filenames, ∃ fn ∈ fns,
        exceptIsError (cfg.download (cfg.join_path cfg.analyze_uri fn)) = true := by
      rcases hfail with hfail | hfail
      · exact absurd hfail hback
      · exact hfail
    rcases h2 : (copyAnalyzerFiles cfg cfg.analyzer_bundle_filenames).2 with _ | e2
    · have := copyAnalyzerFiles_fails cfg cfg.analyzer_bundle_filenames hana
      rw [h2] at this
      simp at this
    · have htr : bundleCmd cfg
          = ((copyFilesFrom cfg cfg.train_uri cfg.backend_bundle_filenames).1
              ++ (copyAnalyzerFiles cfg cfg.analyzer_bundle_filenames).1, some e2) := by
        simp only [bundleCmd, h1, h2]
      rw [htr]
      refine ⟨rfl, ?_, ?_⟩
      · intro hmem
        rcases List.mem_append.mp hmem with hmem | hmem
        · rcases copyFilesFrom_events cfg cfg.train_uri _ _ hmem with ⟨fn, hfn⟩
          exact nomatch hfn
        · rcases copyAnalyzerFiles_events cfg _ _ hmem with ⟨fn, hfn⟩
          exact nomatch hfn
      · intro hmem
        rcases List.mem_append.mp hmem with hmem | hmem
        · rcases copyFilesFrom_events cfg cfg.train_uri _ _ hmem with ⟨fn, hfn⟩
          exact nomatch hfn
        · rcases copyAnalyzerFiles_events cfg _ _ hmem with ⟨fn, hfn⟩
          exact nomatch hfn
  · have htr : bundleCmd cfg
        = ((copyFilesFrom cfg cfg.train_uri cfg.backend_bundle_filenames).1, some e1) := by
      simp only [bundleCmd, h1]
    rw [htr]
    refine ⟨rfl, ?_, ?_⟩
    · intro hmem
      rcases copyFilesFrom_events cfg cfg.train_uri _ _ hmem with ⟨fn, hfn⟩
      exact nomatch hfn
    · intro hmem
      rcases copyFilesFrom_events cfg cfg.train_uri _ _ hmem with ⟨fn, hfn⟩
      exact nomatch hfn

/-- C7 (witness): the bundle configuration whose only backend-declared
file fails to download produces an error and no archive events. -/
theorem C7_witness :
    ((bundleCmd bundleCfgMissing).2.isSome = true
      ∧ BundleEvent.zipArchive ∉ (bundleCmd bundleCfgMissing).1
      ∧ BundleEvent.uploadArchive ∉ (bundleCmd bundleCfgMissing).1) :=
  C7_bundle_fails_before_archive bundleCfgMissing
    (Or.inl ⟨"model.pt", by decide, by decide⟩)

/-- C8: for the command-line predict entry point, with the Python int()
builtin abstracted as the external collaborator pyInt: an omitted
channel-order passes None to the Predictor; a provided channel-order
value is split on single spaces and each token converted by int() before
the Predictor is constructed, so a value all of whose tokens int()
accepts yields exactly the list of converted integers, and a value with
any token int() rejects fails immediately with an error. -/
theorem C8_channel_order (pyInt : List Char → Option Int)
    (model_bundle image_uri output_uri : String) :
    (cliPredict pyInt model_bundle image_uri output_uri none
        = Except.ok { model_bundle := model_bundle, channel_order := none,
                      image_uris := [image_uri], output_uri := output_uri })
    ∧ (∀ s : List Char,
        ((∃ t ∈ splitOnSpace s, pyInt t = none) →
          ∃ e, cliPredict pyInt model_bundle image_uri output_uri (some s) = Except.error e)
        ∧ ((∀ t ∈ splitOnSpace s, (pyInt t).isSome = true) →
          cliPredict pyInt model_bundle image_uri output_uri (some s)
            = Except.ok { model_bundle := model_bundle,
                          channel_order := some ((splitOnSpace s).filterMap pyInt),
                          image_uris := [image_uri], output_uri := output_uri })) := by
  refine ⟨rfl, fun s => ⟨?_, ?_⟩⟩
  · intro hbad
    rcases parseIntTokens_fails pyInt (splitOnSpace s) hbad with ⟨e, he⟩
    exact ⟨e, by simp only [cliPredict, he]⟩
  · intro hgood
    simp only [cliPredict, parseIntTokens_ok pyInt (splitOnSpace s) hgood]

/-- C8 (witness): under the sample int() interpretation, the
channel-order value with characters 2, space, x has a rejected token and
makes the entry point fail, while the value 2 1 0 is converted to the
integer list 2, 1, 0. -/
theorem C8_witness :
    (∃ t ∈ splitOnSpace ("2 x".data), pyIntFix t = none)
    ∧ (∃ e, cliPredict pyIntFix "bundle.zip" "img.tif" "out.json" (some ("2 x".data))
        = Except.error e)
    ∧ cliPredict pyIntFix "bundle.zip" "img.tif" "out.json" (some ("2 1 0".data))
        = Except.ok { model_bundle := "bundle.zip", channel_order := some [2, 1, 0],
                      image_uris := ["img.tif"], output_uri := "out.json" } :=
  ⟨by decide,
    ((C8_channel_order pyIntFix "bundle.zip" "img.tif" "out.json").2 ("2 x".data)).1 (by decide),
    rfl⟩

/-- C5 (witness): the backend-caching properties evaluated on the
concrete predict configuration with an empty cache. -/
theorem C5_witness :
    ∃ b, (predictCmd predPlFix none 0 1).1 = some b
      ∧ (∀ (s : Nat) (b2 : Nat) (l : Nat),
          PredictEvent.predictSceneCall s b2 l ∈ (predictCmd predPlFix none 0 1).2 → b2 = b)
      ∧ (predictCmd predPlFix none 0 1).2.countP (fun e => e.isBuild) ≤ 1
      ∧ (predictCmd predPlFix none 0 1).2.countP (fun e => e.isLoad) ≤ 1
      ∧ ∃ pre rest, (predictCmd predPlFix none 0 1).2 = pre ++ rest
          ∧ (∀ e ∈ pre, e = PredictEvent.buildBackend ∨ e = PredictEvent.loadModel)
          ∧ (∀ e ∈ rest, e.isBuild = false ∧ e.isLoad = false) :=
  C5_backend_built_once predPlFix none 0 1

/-- C10 (witness): backend cache persistence across two successive
invocations of the concrete predict configuration. -/
theorem C10_witness :
    (PredictEvent.buildBackend ∈ (predictCmd predPlFix none 0 1).2
      ∧ PredictEvent.loadModel ∈ (predictCmd predPlFix none 0 1).2)
    ∧ (predictCmd predPlFix none 0 1).1 = some predPlFix.build_backend
    ∧ (∀ e ∈ (predictCmd predPlFix ((predictCmd predPlFix none 0 1).1) 1 2).2,
        e.isBuild = false ∧ e.isLoad = false)
    ∧ (predictCmd predPlFix ((predictCmd predPlFix none 0 1).1) 1 2).1
        = (predictCmd predPlFix none 0 1).1
    ∧ (∀ (s : Nat) (b2 : Nat) (l : Nat),
        PredictEvent.predictSceneCall s b2 l
            ∈ (predictCmd predPlFix ((predictCmd predPlFix none 0 1).1) 1 2).2
          → b2 = predPlFix.build_backend) :=
  C10_backend_cache_persists predPlFix 0 1 1 2
